import Mathlib

/-!
Verification of the mpt-circuit claim/witness model (`src/types.rs`) and
state-table arithmetization (`src/mpt_table.rs`) against its specification.

Modelling conventions:
- The BN254 scalar field `Fr` is modelled as `ZMod frModulus`.
- The Poseidon hash permutation is external to the repository (the spec
  consumes it as an opaque 2-to-1 compression function `H(a,b) -> c`), so
  every definition that hashes is parametrised by `h : Fr -> Fr -> Fr`.
  Concrete instantiations (`mh`, `mh0`) are used only to evaluate closed
  statements; no theorem depends on properties of a particular hash.
- Rust `u64` / `U256` / `BigUint` values are modelled as `Nat` (the code
  paths exercised by the claims perform no wrapping arithmetic on them).
- Rust panics (`assert!`, `assert_eq!`, `unimplemented!`, `unwrap` on
  `None`) are modelled by `Option`/`none` for functions and by a `false`
  conjunct for the boolean validation oracle `Proof.check`.
-/

set_option maxHeartbeats 1000000

/-- Order of the BN254 scalar field, the `Fr` of `halo2curves::bn256`. -/
def frModulus : Nat :=
  21888242871839275222246405745257275088548364400416034343698204186575808495617

/-- The scalar field `Fr` used throughout `types.rs` and `mpt_table.rs`. -/
abbrev Fr := ZMod frModulus

instance : NeZero frModulus := ⟨by decide⟩

instance : Fact (1 < frModulus) := ⟨by decide⟩

/-- The `Bit` trait impl for `Fr` (`types.rs`): bit `i` of the canonical
little-endian byte representation, i.e. bit `i` of the canonical value.
(The Rust byte-indexing arithmetic is only defined for `i < 256`; all uses in
the code index below the path length, which is at most 256.) -/
def frBit (x : Fr) (i : Nat) : Bool := Nat.testBit x.val i

/-- Fuel-driven worker for `u64_digits` (structural recursion so that the
kernel can evaluate it on concrete inputs). -/
def u64_digits_aux : Nat → Nat → List Nat
  | _, 0 => []
  | 0, _ + 1 => []
  | fuel + 1, n + 1 => (n + 1) % 2 ^ 64 :: u64_digits_aux fuel ((n + 1) / 2 ^ 64)

/-- `BigUint::to_u64_digits`: little-endian base-`2^64` digits, no trailing
zero digit. -/
def u64_digits (n : Nat) : List Nat := u64_digits_aux n n

/-- `big_uint_to_fr` (`types.rs`): fold the 64-bit digits most-significant
first with multiplier `Fr::from(1 << 32).square()`. -/
def big_uint_to_fr (i : Nat) : Fr :=
  (u64_digits i).reverse.foldl (fun (a : Fr) (b : Nat) => a * ((1 <<< 32 : Nat) : Fr) ^ 2 + (b : Fr)) 0

/-- `hi_lo` (`types.rs`): pad/truncate the 64-bit digit list to 4 digits and
assemble the two 128-bit halves (`d3*2^64 + d2`, `d1*2^64 + d0`). -/
def hi_lo (x : Nat) : Fr × Fr :=
  let d := u64_digits x
  (((d.getD 3 0 * 2 ^ 64 + d.getD 2 0 : Nat) : Fr),
   ((d.getD 1 0 * 2 ^ 64 + d.getD 0 0 : Nat) : Fr))

/-- `split_word` (`types.rs`): big-endian 32-byte split of a 256-bit word into
two 128-bit halves. -/
def split_word (x : Nat) : Fr × Fr :=
  (((x / 2 ^ 128 : Nat) : Fr), ((x % 2 ^ 128 : Nat) : Fr))

/-- `account_key` (`types.rs`): hash of the high 16 address bytes and the low
4 address bytes shifted left by 96 bits.  An `Address` is 20 big-endian bytes,
modelled as a `Nat` below `2^160`. -/
def account_key (h : Fr → Fr → Fr) (address : Nat) : Fr :=
  h ((address / 2 ^ 32 : Nat) : Fr) ((address % 2 ^ 32 * 2 ^ 96 : Nat) : Fr)

/-- `storage_key_hash` (`types.rs`): hash of the hi/lo split of a storage key. -/
def storage_key_hash (h : Fr → Fr → Fr) (key : Nat) : Fr :=
  h (split_word key).1 (split_word key).2

/-- `AccountData` (`serde.rs`, outside `src/`): the per-snapshot account record,
fields as used by `types.rs` (`nonce`, `code_size` are `u64`; `balance`,
`code_hash`, `poseidon_code_hash` are big unsigned integers). -/
structure AccountData where
  nonce : Nat
  code_size : Nat
  balance : Nat
  code_hash : Nat
  poseidon_code_hash : Nat

/-- `EthAccount` (`types.rs`). -/
structure EthAccount where
  nonce : Nat
  code_size : Nat
  poseidon_codehash : Fr
  balance : Fr
  keccak_codehash : Nat

/-- `impl From<AccountData> for EthAccount` (`types.rs`). -/
def EthAccount.fromAccountData (account_data : AccountData) : EthAccount :=
  { nonce := account_data.nonce
    code_size := account_data.code_size
    poseidon_codehash := 0
    balance := 0
    keccak_codehash := 0 }

/-- `ClaimKind` (`types.rs`). -/
inductive ClaimKind where
  | Nonce (old new : Option Nat)
  | Balance (old new : Option Nat)
  | CodeHash (old new : Option Nat)
  | CodeSize (old new : Option Nat)
  | PoseidonCodeHash (old new : Option Fr)
  | Storage (key : Nat) (old_value new_value : Option Nat)
  | IsEmpty (key : Option Nat)

/-- `Claim` (`types.rs`). -/
structure Claim where
  old_root : Fr
  new_root : Fr
  address : Nat
  kind : ClaimKind

/-- `Claim::old_value_assignment` (`types.rs`): `Fr::from(old.unwrap_or_default())`
for a Nonce claim, `unimplemented!` (modelled as `none`) for every other kind. -/
def Claim.old_value_assignment (c : Claim) (_randomness : Fr) : Option Fr :=
  match c.kind with
  | ClaimKind.Nonce old _ => some ((old.getD 0 : Nat) : Fr)
  | _ => none

/-- `Claim::new_value_assignment` (`types.rs`). -/
def Claim.new_value_assignment (c : Claim) (_randomness : Fr) : Option Fr :=
  match c.kind with
  | ClaimKind.Nonce _ new => some ((new.getD 0 : Nat) : Fr)
  | _ => none

/-- `MPTProofType` of the crate root as matched in `types.rs` (nine kinds). -/
inductive MPTProofType where
  | NonceChanged
  | BalanceChanged
  | AccountDoesNotExist
  | CodeHashExists
  | CodeSizeExists
  | PoseidonCodeHashExists
  | StorageChanged
  | StorageDoesNotExist
  | AccountDestructed
deriving DecidableEq

/-- One entry of `SMTTrace.state_update` (`serde.rs`, outside `src/`): a
storage slot key/value pair.  Its payload is never consumed on a
non-panicking path of `ClaimKind::from`. -/
structure StateData where
  key : Nat
  value : Nat

/-- The part of `SMTTrace` (`serde.rs`, outside `src/`) consumed by
`ClaimKind::from`: the before/after account snapshots and the optional
storage update pair. -/
structure SMTTrace where
  account_update : Option AccountData × Option AccountData
  state_update : Option (Option StateData × Option StateData)

/-- `impl From<(&MPTProofType, &SMTTrace)> for ClaimKind` (`types.rs`).
Panics (`unimplemented!`, failed `assert_eq!` on the requested proof type)
are modelled as `none`. -/
def ClaimKind.fromTrace (proof_type : MPTProofType) (trace : SMTTrace) : Option ClaimKind :=
  match trace.state_update with
  | some (some _, _) => none
  | some (none, some _) => none
  | _ =>
    match trace.account_update with
    | (none, none) => some (ClaimKind.IsEmpty none)
    | (none, some new) =>
      if new.nonce ≠ 0 then
        if proof_type = MPTProofType.NonceChanged then
          some (ClaimKind.Nonce none (some new.nonce))
        else none
      else if new.balance = 0 then
        if proof_type = MPTProofType.BalanceChanged then
          some (ClaimKind.Balance none (some new.balance))
        else none
      else none
    | (some old, some new) =>
      match proof_type with
      | MPTProofType.NonceChanged =>
          some (ClaimKind.Nonce (some old.nonce) (some new.nonce))
      | MPTProofType.BalanceChanged =>
          some (ClaimKind.Balance (some old.balance) (some new.balance))
      | MPTProofType.AccountDoesNotExist => some (ClaimKind.IsEmpty none)
      | MPTProofType.CodeHashExists =>
          some (ClaimKind.CodeHash (some old.code_hash) (some new.code_hash))
      | MPTProofType.CodeSizeExists =>
          some (ClaimKind.Nonce (some old.nonce) (some new.nonce))
      | MPTProofType.PoseidonCodeHashExists =>
          some (ClaimKind.PoseidonCodeHash (some (big_uint_to_fr old.poseidon_code_hash))
            (some (big_uint_to_fr new.poseidon_code_hash)))
      | _ => none
    | (some _, none) => none

/-- `SMTNode` (`serde.rs`, outside `src/`): a sibling/value pair along a
Merkle path, with the 32-byte hex words already converted to `Fr` (the `fr`
helper of `types.rs`). -/
structure SMTNode where
  value : Fr
  sibling : Fr

/-- `LeafNode` (`types.rs`). -/
structure LeafNode where
  key : Fr
  value_hash : Fr

/-- One entry of `Proof.address_hash_traces` (`types.rs`), whose tuple
components are documented in the source as
`(direction, open value, close value, sibling, is_padding_open, is_padding_close)`. -/
structure AddressHashTrace where
  direction : Bool
  open_value : Fr
  close_value : Fr
  sibling : Fr
  is_padding_open : Bool
  is_padding_close : Bool

/-- Default entry used to read `AddressHashTrace` lists positionally. -/
def dfltTrace : AddressHashTrace := ⟨false, 0, 0, 0, false, false⟩

/-- `Path` (`types.rs`); named `MptPath` here because Mathlib already has a
root-level `Path`. -/
structure MptPath where
  key : Fr
  key_hash : Fr
  leaf_data_hash : Option Fr

/-- `Proof` (`types.rs`).  `leafs: [Option<LeafNode>; 2]` is modelled as a
pair. -/
structure Proof where
  claim : Claim
  address_hash_traces : List AddressHashTrace
  leafs : Option LeafNode × Option LeafNode
  old_account_hash_traces : List (Fr × Fr × Fr)
  new_account_hash_traces : List (Fr × Fr × Fr)
  storage_hash_traces : Option (List AddressHashTrace)
  old : MptPath
  new : MptPath
  old_account : Option EthAccount
  new_account : Option EthAccount

/-- Positional access into a `[[Fr; 3]; 7]` hash-trace table modelled as a
list of triples. -/
def at3 (l : List (Fr × Fr × Fr)) (i : Nat) : Fr × Fr × Fr := l.getD i (0, 0, 0)

/-- `account_hash_traces` (`types.rs`): the fixed 7-step account hash chain.
The rows are, in order: codehash split, storage digest, nonce/codesize with
balance, state digest, account digest, key digest, leaf digest.  (The Rust
function additionally cross-checks the result against the external
`operation::Account` type, which lives outside `src/`.) -/
def account_hash_traces (h : Fr → Fr → Fr) (address : Nat) (account : AccountData)
    (storage_root : Fr) : List (Fr × Fr × Fr) :=
  let codehash := hi_lo account.code_hash
  let h1 := h codehash.1 codehash.2
  let h2 := h storage_root h1
  let nonce_and_codesize :=
    ((account.nonce : Nat) : Fr) + ((account.code_size : Nat) : Fr) * ((1 <<< 32 : Nat) : Fr) ^ 2
  let balance := big_uint_to_fr account.balance
  let h3 := h nonce_and_codesize balance
  let h4 := h h3 h2
  let key := account_key h address
  let h5 := h 1 key
  let poseidon_codehash := big_uint_to_fr account.poseidon_code_hash
  let account_hash := h h4 poseidon_codehash
  [ (codehash.1, codehash.2, h1),
    (storage_root, h1, h2),
    (nonce_and_codesize, balance, h3),
    (h3, h2, h4),
    (h4, poseidon_codehash, account_hash),
    (1, key, h5),
    (h5, account_hash, h h5 account_hash) ]

/-- The `EitherOrBoth::Right` tail of the `zip_longest` walk in
`get_internal_hash_traces` (`types.rs`): only close-path entries remain, the
open digest is padded with the open leaf hash. -/
def address_trace_right (key : Fr) (leaf_hashes : Fr × Fr) :
    Nat → List SMTNode → List AddressHashTrace
  | _, [] => []
  | i, c :: cs =>
      ⟨frBit key i, leaf_hashes.1, c.value, c.sibling, true, false⟩ ::
        address_trace_right key leaf_hashes (i + 1) cs

/-- Worker for `get_internal_hash_traces` (`types.rs`): walk the two sibling
paths in parallel (`zip_longest`), tagging entry `i` with key bit `i`; the
`assert_eq!` on equal siblings in the `Both` case is modelled by `none`. -/
def address_trace_go (key : Fr) (leaf_hashes : Fr × Fr) :
    Nat → List SMTNode → List SMTNode → Option (List AddressHashTrace)
  | i, [], cs => some (address_trace_right key leaf_hashes i cs)
  | i, o :: os, c :: cs =>
      if o.sibling = c.sibling then
        (address_trace_go key leaf_hashes (i + 1) os cs).map
          (fun rest => ⟨frBit key i, o.value, c.value, o.sibling, false, false⟩ :: rest)
      else none
  | i, o :: os, [] =>
      (address_trace_go key leaf_hashes (i + 1) os []).map
        (fun rest => ⟨frBit key i, o.value, leaf_hashes.2, o.sibling, false, true⟩ :: rest)

/-- `get_internal_hash_traces` (`types.rs`): build the per-level entries and
reverse the list. -/
def get_internal_hash_traces (key : Fr) (leaf_hashes : Fr × Fr)
    (open_hash_traces close_hash_traces : List SMTNode) : Option (List AddressHashTrace) :=
  (address_trace_go key leaf_hashes 0 open_hash_traces close_hash_traces).map List.reverse

/-- One step of `check_hash_traces_new` (`types.rs`): the hash of the current
entry (per its direction bit) must reappear as the next entry's value, on the
open and close sides separately, with padded slots exempt. -/
def hash_trace_step (h : Fr → Fr → Fr) (cur next : AddressHashTrace) : Bool :=
  (if cur.direction then
    (if cur.is_padding_open then true
     else (next.is_padding_open = false : Bool) && decide (h cur.sibling cur.open_value = next.open_value)) &&
    (if cur.is_padding_close then true
     else (next.is_padding_close = false : Bool) && decide (h cur.sibling cur.close_value = next.close_value))
  else
    (if cur.is_padding_open then true
     else (next.is_padding_open = false : Bool) && decide (h cur.open_value cur.sibling = next.open_value)) &&
    (if cur.is_padding_close then true
     else (next.is_padding_close = false : Bool) && decide (h cur.close_value cur.sibling = next.close_value)))

/-- `check_hash_traces_new` (`types.rs`): every consecutive pair of entries
satisfies `hash_trace_step`. -/
def check_hash_traces_new (h : Fr → Fr → Fr) (traces : List AddressHashTrace) : Bool :=
  (traces.zip traces.tail).all (fun p => hash_trace_step h p.1 p.2)

/-- The direction loop of `Proof::check` (`types.rs`): the direction bit at
index `i` equals bit `len - i - 1` of the key. -/
def directions_ok (key : Fr) (traces : List AddressHashTrace) : Bool :=
  (List.range traces.length).all
    (fun i => (traces.getD i dfltTrace).direction == frBit key (traces.length - i - 1))

/-- The root check of `Proof::check` (`types.rs`): the last entry, combined
with its sibling according to its direction bit, reproduces the claimed old
root (open side) and new root (close side); an empty list panics. -/
def roots_ok (h : Fr → Fr → Fr) (old_root new_root : Fr)
    (traces : List AddressHashTrace) : Bool :=
  match traces.getLast? with
  | none => false
  | some t =>
    if t.direction then
      decide (h t.sibling t.open_value = old_root) && decide (h t.sibling t.close_value = new_root)
    else
      decide (h t.open_value t.sibling = old_root) && decide (h t.close_value t.sibling = new_root)

/-- The two assertions of `Proof::check` tying `account_hash_traces[5][2]` of
each side to the first `address_hash_traces` entry (`.get(0).unwrap()` panics
on an empty list). -/
def head_links_ok (p : Proof) : Bool :=
  match p.address_hash_traces.head? with
  | none => false
  | some t =>
    decide ((at3 p.old_account_hash_traces 5).2.2 = t.open_value) &&
    decide ((at3 p.new_account_hash_traces 5).2.2 = t.close_value)

/-- The leaf assertions of `Proof::check` (`types.rs`): the digest recomputed
from each recorded leaf node, `H(H(1, key), value_hash)`, is compared with
`account_hash_traces[5][2]` of the matching side; `unwrap` on a missing leaf
panics. -/
def leaf_check (h : Fr → Fr → Fr) (p : Proof) : Bool :=
  match p.leafs.1, p.leafs.2 with
  | some l0, some l1 =>
    decide (h (h 1 l0.key) l0.value_hash = (at3 p.old_account_hash_traces 5).2.2) &&
    decide (h (h 1 l1.key) l1.value_hash = (at3 p.new_account_hash_traces 5).2.2)
  | _, _ => false

/-- Comparison the specification describes for the leaf assertions of
`Proof::check`: the recomputed leaf digest must agree with the final (step 7)
entry `account_hash_traces[6][2]` of the matching account hash chain.
Modelled from the spec for refutation of C5; `leaf_check` above is the code. -/
def leaf_check_spec (h : Fr → Fr → Fr) (p : Proof) : Bool :=
  match p.leafs.1, p.leafs.2 with
  | some l0, some l1 =>
    decide (h (h 1 l0.key) l0.value_hash = (at3 p.old_account_hash_traces 6).2.2) &&
    decide (h (h 1 l1.key) l1.value_hash = (at3 p.new_account_hash_traces 6).2.2)
  | _, _ => false

/-- The storage-path hash consistency part of `Proof::check`. -/
def storage_hash_ok (h : Fr → Fr → Fr) (p : Proof) : Bool :=
  match p.storage_hash_traces with
  | none => true
  | some ts => check_hash_traces_new h ts

/-- The storage-direction part of `Proof::check`: for storage claims the
direction bits must match the storage key hash (`unwrap` panics when the
storage traces are absent). -/
def storage_dirs_ok (h : Fr → Fr → Fr) (p : Proof) : Bool :=
  match p.claim.kind with
  | ClaimKind.Storage key _ _ =>
    (match p.storage_hash_traces with
     | none => false
     | some ts => directions_ok (storage_key_hash h key) ts)
  | ClaimKind.IsEmpty (some key) =>
    (match p.storage_hash_traces with
     | none => false
     | some ts => directions_ok (storage_key_hash h key) ts)
  | _ => true

/-- The storage-root part of `Proof::check`: the last storage trace entry must
reproduce `old/new account_hash_traces[1][1]` (the storage roots); an empty
storage trace list is accepted (the `TODO` branch of the source). -/
def storage_roots_ok (h : Fr → Fr → Fr) (p : Proof) : Bool :=
  match p.storage_hash_traces with
  | none => true
  | some ts =>
    match ts.getLast? with
    | none => true
    | some t =>
      if t.direction then
        decide (h t.sibling t.open_value = (at3 p.old_account_hash_traces 1).2.1) &&
        decide (h t.sibling t.close_value = (at3 p.new_account_hash_traces 1).2.1)
      else
        decide (h t.open_value t.sibling = (at3 p.old_account_hash_traces 1).2.1) &&
        decide (h t.close_value t.sibling = (at3 p.new_account_hash_traces 1).2.1)

/-- `Proof::check` (`types.rs`): the conjunction of all its assertions, in
source order.  `true` models a run with no panic. -/
def Proof.check (h : Fr → Fr → Fr) (p : Proof) : Bool :=
  check_hash_traces_new h p.address_hash_traces &&
  directions_ok (account_key h p.claim.address) p.address_hash_traces &&
  roots_ok h p.claim.old_root p.claim.new_root p.address_hash_traces &&
  head_links_ok p &&
  leaf_check h p &&
  storage_hash_ok h p &&
  storage_dirs_ok h p &&
  storage_roots_ok h p

namespace MptTable

/-- `MPTProofType` as redeclared in `mpt_table.rs` (seven variants with
explicit discriminants 1..7). -/
inductive MPTProofType where
  | NonceChanged
  | BalanceChanged
  | CodeHashExists
  | AccountDoesNotExist
  | AccountDestructed
  | StorageChanged
  | StorageDoesNotExist
deriving DecidableEq

/-- The Rust enum discriminant (`NonceChanged = 1`, then consecutive). -/
def MPTProofType.code : MPTProofType → Nat
  | MPTProofType.NonceChanged => 1
  | MPTProofType.BalanceChanged => 2
  | MPTProofType.CodeHashExists => 3
  | MPTProofType.AccountDoesNotExist => 4
  | MPTProofType.AccountDestructed => 5
  | MPTProofType.StorageChanged => 6
  | MPTProofType.StorageDoesNotExist => 7

/-- `KeyValue` (`operation.rs`, outside `src/`): a 256-bit quantity held as
two 128-bit field limbs, as consumed by `mpt_table.rs` via `create_base`,
`limb_0`, `limb_1` and `u8_rlc`. -/
structure KeyValue where
  limb_0 : Fr
  limb_1 : Fr

/-- `KeyValue::create_base` (`operation.rs`, outside `src/`): wrap a limb pair. -/
def KeyValue.create_base (p : Fr × Fr) : KeyValue := ⟨p.1, p.2⟩

/-- Little-endian byte limbs of a 128-bit field limb, as produced by
`le_value_to_limbs` of the `value_rep` module (not under `src/`). -/
def le_bytes_16 (x : Fr) : List Nat :=
  (List.range 16).map (fun i => x.val / 256 ^ i % 256)

/-- Modelled from the spec: `KeyValue::u8_rlc` (`operation.rs`, outside
`src/`) is the RLC binder of section 2, `scalar = sum of byte_i *
challenge^i` over the 32 little-endian byte limbs, `limb_0` bytes first
(matching the limb order `MPTTable::load` feeds to `key_rep`). -/
def KeyValue.u8_rlc (kv : KeyValue) (randomness : Fr) : Fr :=
  (le_bytes_16 kv.limb_0 ++ le_bytes_16 kv.limb_1).foldr
    (fun b acc => (b : Fr) + acc * randomness) 0

/-- `Account` (`operation.rs`, outside `src/`): the fields `mpt_table.rs`
reads from it (`nonce` and `balance` are consumed directly as field
elements, `codehash` as a limb pair). -/
structure Account where
  nonce : Fr
  balance : Fr
  codehash : Fr × Fr

/-- `AccountOp` (`operation.rs`, outside `src/`): the fields `MPTEntry::from_op`
reads.  `account_root_before`/`account_root` are accessor methods in Rust,
modelled as stored values. -/
structure AccountOp where
  address : Fr
  account_before : Option Account
  account_after : Option Account
  store_key : Option KeyValue
  store_before : Option KeyValue
  store_after : Option KeyValue
  account_root_before : Fr
  account_root : Fr

/-- `MPTEntry` (`mpt_table.rs`): seven base scalars plus the three limb
pairs. -/
structure MPTEntry where
  base : Fin 7 → Fr
  storage_key : KeyValue
  new_value : KeyValue
  old_value : KeyValue

/-- `MPTEntry::from_op` (`mpt_table.rs`): note the order of `base`:
`[proof_type, address, storage_key_rlc, old_value_f, new_value_f,
account_root_before, account_root]`. -/
def MPTEntry.from_op (proof_type : MPTProofType) (op : AccountOp) (randomness : Fr) :
    MPTEntry :=
  let storage_key := op.store_key.getD ⟨0, 0⟩
  let value_pair : KeyValue × KeyValue :=
    match proof_type with
    | MPTProofType.CodeHashExists =>
        ((op.account_before.map (fun acc => KeyValue.create_base acc.codehash)).getD ⟨0, 0⟩,
         (op.account_after.map (fun acc => KeyValue.create_base acc.codehash)).getD ⟨0, 0⟩)
    | MPTProofType.StorageChanged =>
        (op.store_before.getD ⟨0, 0⟩, op.store_after.getD ⟨0, 0⟩)
    | _ => (⟨0, 0⟩, ⟨0, 0⟩)
  let old_value := value_pair.1
  let new_value := value_pair.2
  let value_f : Fr × Fr :=
    match proof_type with
    | MPTProofType.NonceChanged =>
        ((op.account_before.map Account.nonce).getD 0,
         (op.account_after.map Account.nonce).getD 0)
    | MPTProofType.BalanceChanged =>
        ((op.account_before.map Account.balance).getD 0,
         (op.account_after.map Account.balance).getD 0)
    | MPTProofType.StorageChanged =>
        (old_value.u8_rlc randomness, new_value.u8_rlc randomness)
    | MPTProofType.CodeHashExists =>
        (old_value.u8_rlc randomness, new_value.u8_rlc randomness)
    | _ => (0, 0)
  { base := ![((proof_type.code : Nat) : Fr), op.address,
              storage_key.u8_rlc randomness, value_f.1, value_f.2,
              op.account_root_before, op.account_root]
    storage_key := storage_key
    new_value := new_value
    old_value := old_value }

/-- One assigned row of the state table: the row enable selector, the seven
per-kind selector columns and the seven base columns (the byte-limb and
hi/lo sub-configurations live in modules outside `src/`). -/
structure Row where
  sel : Bool
  proof_sel : Fin 7 → Fr
  address : Fr
  storage_key : Fr
  proof_type : Fr
  new_root : Fr
  old_root : Fr
  new_value : Fr
  old_value : Fr

/-- The row `MPTTable::load` assigns for one entry: the selector is enabled,
`proof_sel[i] = 1` exactly when `F::from(i + 1) == entry.base[2]`, and the
base scalars are zipped onto the columns in the order
`[address, storage_key, proof_type, new_root, old_root, new_value, old_value]`. -/
def entry_row (e : MPTEntry) : Row :=
  { sel := true
    proof_sel := fun i => if (((i : Nat) + 1 : Nat) : Fr) = e.base 2 then 1 else 0
    address := e.base 0
    storage_key := e.base 1
    proof_type := e.base 2
    new_root := e.base 3
    old_root := e.base 4
    new_value := e.base 5
    old_value := e.base 6 }

/-- A padding (flush) row of `MPTTable::load`: selector off, every column
zero. -/
def pad_row : Row :=
  { sel := false, proof_sel := fun _ => 0, address := 0, storage_key := 0
    proof_type := 0, new_root := 0, old_root := 0, new_value := 0, old_value := 0 }

/-- `MPTTable` (`mpt_table.rs`): the entry list and the configured row
budget (the column handles of `Config` are bookkeeping for the constraint
system and carry no data). -/
structure MPTTable where
  entries : List MPTEntry
  rows : Nat

/-- `MPTTable::load` (`mpt_table.rs`): `assert!(entries.len() <= rows)` is
checked before any cell is assigned (modelled as `none`); on success every
entry becomes an enabled row and the remaining rows are flushed with zeros. -/
def MPTTable.load (t : MPTTable) : Option (List Row) :=
  if t.entries.length ≤ t.rows then
    some (t.entries.map entry_row ++ List.replicate (t.rows - t.entries.length) pad_row)
  else none

/-- The per-column gate of `MPTTable::configure` ("proof sel array"): each
selector column is boolean, and an enabled selector forces
`proof_type = index + 1`. -/
def proof_sel_gates (row : Row) : Prop :=
  ∀ i : Fin 7,
    row.proof_sel i * (1 - row.proof_sel i) = 0 ∧
    row.proof_sel i * ((((i : Nat) + 1 : Nat) : Fr) - row.proof_type) = 0

/-- The "enabled sel is unique" gate of `MPTTable::configure`: the sum of the
seven selector columns is boolean. -/
def unique_gate (row : Row) : Prop :=
  (∑ i, row.proof_sel i) * (1 - ∑ i, row.proof_sel i) = 0

end MptTable

/-- Evaluation of the digit worker at zero, for any fuel. -/
theorem u64_digits_aux_zero (fuel : Nat) : u64_digits_aux fuel 0 = [] := by
  cases fuel <;> rfl

/-- The digit worker is fuel-independent once the fuel dominates the input. -/
theorem u64_digits_aux_fuel (n : Nat) :
    ∀ fuel, n ≤ fuel → u64_digits_aux fuel n = u64_digits n := by
  induction n using Nat.strong_induction_on with
  | _ n ih =>
    intro fuel hf
    match n, fuel with
    | 0, fuel => rw [u64_digits_aux_zero]; rfl
    | m + 1, fuel + 1 =>
      show (m + 1) % 2 ^ 64 :: u64_digits_aux fuel ((m + 1) / 2 ^ 64) = u64_digits (m + 1)
      have hq : (m + 1) / 2 ^ 64 < m + 1 := Nat.div_lt_self (Nat.succ_pos m) (by norm_num)
      have hq2 : (m + 1) / 2 ^ 64 ≤ m := Nat.lt_succ_iff.mp hq
      rw [ih _ hq fuel (le_trans hq2 (Nat.lt_succ_iff.mp hf))]
      show _ = u64_digits_aux (m + 1) (m + 1)
      show _ = (m + 1) % 2 ^ 64 :: u64_digits_aux m ((m + 1) / 2 ^ 64)
      rw [ih _ hq m hq2]

/-- Unfolding equation for `u64_digits` at a positive input. -/
theorem u64_digits_succ (m : Nat) :
    u64_digits (m + 1) = (m + 1) % 2 ^ 64 :: u64_digits ((m + 1) / 2 ^ 64) := by
  show u64_digits_aux (m + 1) (m + 1) = _
  show (m + 1) % 2 ^ 64 :: u64_digits_aux m ((m + 1) / 2 ^ 64) = _
  rw [u64_digits_aux_fuel ((m + 1) / 2 ^ 64) m
    (Nat.lt_succ_iff.mp (Nat.div_lt_self (Nat.succ_pos m) (by norm_num)))]

/-- The digit-fold multiplier `Fr::from(1 << 32).square()` is `2^64` in the
field. -/
theorem shift_square : ((1 <<< 32 : Nat) : Fr) ^ 2 = ((2 ^ 64 : Nat) : Fr) := by
  have h1 : (1 <<< 32 : Nat) = 2 ^ 32 := by norm_num [Nat.shiftLeft_eq]
  rw [h1, ← Nat.cast_pow, ← pow_mul]

/-- Folding the 64-bit digits most-significant-first with multiplier `2^64`
reconstructs the integer: `big_uint_to_fr` is the canonical embedding of the
big integer into the field. -/
theorem big_uint_to_fr_eq_cast (n : Nat) : big_uint_to_fr n = (n : Fr) := by
  induction n using Nat.strong_induction_on with
  | _ n ih =>
    match n with
    | 0 => simp [big_uint_to_fr, u64_digits, u64_digits_aux]
    | m + 1 =>
      have hq : (m + 1) / 2 ^ 64 < m + 1 := Nat.div_lt_self (Nat.succ_pos m) (by norm_num)
      have ihq := ih _ hq
      unfold big_uint_to_fr at ihq ⊢
      rw [u64_digits_succ, List.reverse_cons, List.foldl_append, ihq]
      simp only [List.foldl_cons, List.foldl_nil, shift_square]
      rw [← Nat.cast_mul, ← Nat.cast_add]
      congr 1
      omega

/-- Distinct naturals below the field order stay distinct in `Fr`. -/
theorem fr_natCast_inj_small (a b : Nat) (ha : a < frModulus) (hb : b < frModulus)
    (h : (a : Fr) = (b : Fr)) : a = b := by
  have hv := congrArg ZMod.val h
  rwa [ZMod.val_natCast, ZMod.val_natCast, Nat.mod_eq_of_lt ha, Nat.mod_eq_of_lt hb] at hv

/-- Positional read of a reversed list. -/
theorem getD_reverse {α : Type} (l : List α) (i : Nat) (d : α) (h : i < l.length) :
    l.reverse.getD i d = l.getD (l.length - 1 - i) d := by
  rw [List.getD_eq_getElem?_getD, List.getD_eq_getElem?_getD]
  rw [List.getElem?_eq_getElem (by simpa using h), List.getElem?_eq_getElem (by omega)]
  simp [List.getElem_reverse]

/-- Direction bits of the right-only tail: entry `j` of the list built
starting at level `i` carries key bit `i + j`. -/
theorem address_trace_right_direction (key : Fr) (lh : Fr × Fr) :
    ∀ (cs : List SMTNode) (i : Nat) (j : Nat),
      j < (address_trace_right key lh i cs).length →
      ((address_trace_right key lh i cs).getD j dfltTrace).direction = frBit key (i + j) := by
  intro cs
  induction cs with
  | nil =>
    intro i j hj
    simp [address_trace_right] at hj
  | cons c cs ihc =>
    intro i j hj
    cases j with
    | zero => rfl
    | succ j =>
      show ((address_trace_right key lh (i + 1) cs).getD j dfltTrace).direction = _
      rw [ihc (i + 1) j (by simpa [address_trace_right] using hj)]
      congr 1
      omega

/-- Direction bits of the worker output, general case. -/
theorem address_trace_go_direction (key : Fr) (lh : Fr × Fr) :
    ∀ (os cs : List SMTNode) (i : Nat) (L : List AddressHashTrace),
      address_trace_go key lh i os cs = some L →
      ∀ j, j < L.length → (L.getD j dfltTrace).direction = frBit key (i + j) := by
  intro os
  induction os with
  | nil =>
    intro cs i L hL j hj
    unfold address_trace_go at hL
    cases hL
    exact address_trace_right_direction key lh cs i j hj
  | cons o os iho =>
    intro cs i L hL j hj
    cases cs with
    | nil =>
      unfold address_trace_go at hL
      obtain ⟨rest, hrest, hcons⟩ := Option.map_eq_some'.mp hL
      subst hcons
      cases j with
      | zero => rfl
      | succ j =>
        have := iho [] (i + 1) rest hrest j (by simpa using hj)
        rw [List.getD_cons_succ, this]
        congr 1
        omega
    | cons c cs =>
      unfold address_trace_go at hL
      by_cases hsib : o.sibling = c.sibling
      · rw [if_pos hsib] at hL
        obtain ⟨rest, hrest, hcons⟩ := Option.map_eq_some'.mp hL
        subst hcons
        cases j with
        | zero => rfl
        | succ j =>
          have := iho cs (i + 1) rest hrest j (by simpa using hj)
          rw [List.getD_cons_succ, this]
          congr 1
          omega
      · rw [if_neg hsib] at hL
        cases hL

/-- After the final `reverse` of `get_internal_hash_traces`, the direction
bit at index `i` is key bit `len - 1 - i`. -/
theorem get_internal_hash_traces_direction (key : Fr) (lh : Fr × Fr)
    (ons cns : List SMTNode) (T : List AddressHashTrace)
    (hT : get_internal_hash_traces key lh ons cns = some T) :
    ∀ i, i < T.length → (T.getD i dfltTrace).direction = frBit key (T.length - 1 - i) := by
  obtain ⟨L, hL, hrev⟩ := Option.map_eq_some'.mp hT
  subst hrev
  intro i hi
  rw [List.length_reverse] at hi ⊢
  rw [getD_reverse _ _ _ (by simpa using hi)]
  have := address_trace_go_direction key lh ons cns 0 L hL (L.length - 1 - i) (by omega)
  rw [this]
  congr 1
  omega

/-- The constructed address hash traces pass the direction loop of
`Proof::check` verbatim. -/
theorem get_internal_hash_traces_directions_ok (key : Fr) (lh : Fr × Fr)
    (ons cns : List SMTNode) (T : List AddressHashTrace)
    (hT : get_internal_hash_traces key lh ons cns = some T) :
    directions_ok key T = true := by
  unfold directions_ok
  rw [List.all_eq_true]
  intro i hi
  rw [List.mem_range] at hi
  rw [beq_iff_eq]
  rw [get_internal_hash_traces_direction key lh ons cns T hT i hi]
  congr 1
  omega

/-- Hash instantiation used to evaluate closed statements: an affine map that
keeps the handful of concrete values in the examples distinct. -/
def mh (a b : Fr) : Fr := 2 * a + 3 * b + 1

/-- Degenerate hash instantiation (constantly zero) used to exhibit a `Proof`
accepted by `Proof.check`. -/
def mh0 (_a _b : Fr) : Fr := 0

/-- Creation trace with a nonzero balance and zero nonce (the combination the
spec says must classify as a balance initialisation). -/
def c1_trace_balance : SMTTrace :=
  { account_update :=
      (none, some { nonce := 0, code_size := 0, balance := 5, code_hash := 0,
                    poseidon_code_hash := 0 })
    state_update := none }

/-- Creation trace whose new account is entirely zero (the combination the
spec says must fail with MalformedTrace). -/
def c1_trace_zero : SMTTrace :=
  { account_update :=
      (none, some { nonce := 0, code_size := 0, balance := 0, code_hash := 0,
                    poseidon_code_hash := 0 })
    state_update := none }

/-- Creation trace with a nonzero nonce. -/
def c1_trace_nonce : SMTTrace :=
  { account_update :=
      (none, some { nonce := 3, code_size := 0, balance := 5, code_hash := 0,
                    poseidon_code_hash := 0 })
    state_update := none }

/-- Claim C1 (code_bug evaluation): on the `(None, Some(new))` branch the
code tests `new.balance.is_zero()` where the claim (and the code's own panic
message) require the opposite: a creation trace with nonzero balance and zero
nonce panics (`none`), while an all-zero creation returns a Balance claim
with new value `Some(0)`; the nonzero-nonce sub-case behaves as claimed. -/
theorem C1_code_eval :
    ClaimKind.fromTrace MPTProofType.BalanceChanged c1_trace_balance = none ∧
    ClaimKind.fromTrace MPTProofType.BalanceChanged c1_trace_zero =
      some (ClaimKind.Balance none (some 0)) ∧
    ClaimKind.fromTrace MPTProofType.NonceChanged c1_trace_nonce =
      some (ClaimKind.Nonce none (some 3)) := by
  refine ⟨rfl, rfl, rfl⟩

/-- Claim C9: `EthAccount::from(AccountData)` preserves exactly `nonce` and
`code_size` and zeroes `poseidon_codehash`, `balance` and `keccak_codehash`,
whatever the input holds in those fields. -/
theorem C9_from_account_data (a : AccountData) :
    (EthAccount.fromAccountData a).nonce = a.nonce ∧
    (EthAccount.fromAccountData a).code_size = a.code_size ∧
    (EthAccount.fromAccountData a).poseidon_codehash = 0 ∧
    (EthAccount.fromAccountData a).balance = 0 ∧
    (EthAccount.fromAccountData a).keccak_codehash = 0 := by
  exact ⟨rfl, rfl, rfl, rfl, rfl⟩

/-- Claim C10: `old_value_assignment`/`new_value_assignment` panic (modelled
as `none`) for every claim kind other than Nonce; for a Nonce claim they
return the old/new nonce as a field element, zero when that side is `None`;
and the `randomness` argument never affects the result. -/
theorem C10_value_assignment (c : Claim) (r r2 : Fr) :
    c.old_value_assignment r = c.old_value_assignment r2 ∧
    c.new_value_assignment r = c.new_value_assignment r2 ∧
    (∀ o n, c.kind = ClaimKind.Nonce o n →
      c.old_value_assignment r = some ((o.getD 0 : Nat) : Fr) ∧
      c.new_value_assignment r = some ((n.getD 0 : Nat) : Fr)) ∧
    ((∀ o n, c.kind ≠ ClaimKind.Nonce o n) →
      c.old_value_assignment r = none ∧ c.new_value_assignment r = none) := by
  refine ⟨rfl, rfl, ?_, ?_⟩
  · intro o n hk
    unfold Claim.old_value_assignment Claim.new_value_assignment
    rw [hk]
    exact ⟨rfl, rfl⟩
  · intro hne
    unfold Claim.old_value_assignment Claim.new_value_assignment
    cases hk : c.kind with
    | Nonce o n => exact absurd hk (hne o n)
    | Balance o n => exact ⟨rfl, rfl⟩
    | CodeHash o n => exact ⟨rfl, rfl⟩
    | CodeSize o n => exact ⟨rfl, rfl⟩
    | PoseidonCodeHash o n => exact ⟨rfl, rfl⟩
    | Storage k o n => exact ⟨rfl, rfl⟩
    | IsEmpty k => exact ⟨rfl, rfl⟩

/-- Concrete Nonce claim used to instantiate C10. -/
def c10_nonce_claim : Claim :=
  { old_root := 0, new_root := 0, address := 0
    kind := ClaimKind.Nonce (some 5) none }

/-- Concrete Balance claim used to instantiate C10. -/
def c10_balance_claim : Claim :=
  { old_root := 0, new_root := 0, address := 0
    kind := ClaimKind.Balance (some 5) (some 6) }

/-- Witness for C10 at concrete inputs: a Nonce claim yields the nonce (or
zero), a Balance claim panics. -/
theorem C10_witness :
    c10_nonce_claim.old_value_assignment 0 = some ((5 : Nat) : Fr) ∧
    c10_nonce_claim.new_value_assignment 0 = some ((0 : Nat) : Fr) ∧
    c10_balance_claim.old_value_assignment 0 = none := by
  refine ⟨((C10_value_assignment c10_nonce_claim 0 1).2.2.1 (some 5) none rfl).1,
    ((C10_value_assignment c10_nonce_claim 0 1).2.2.1 (some 5) none rfl).2,
    ((C10_value_assignment c10_balance_claim 0 1).2.2.2 ?_).1⟩
  intro o n hk
  simp [c10_balance_claim] at hk

/-- Claim C4 (amended): step 3 of the account hash chain records
`H(nonce + codeSize * 2^64, balanceField)` — the multiplier the code uses,
`Fr::from(1 << 32).square()`, is `2^64`, not the `2^128` of the claim — and
the balance field element is the canonical embedding of the balance integer
(the most-significant-first 64-bit-digit fold with multiplier `2^64`). -/
theorem C4_step3 (h : Fr → Fr → Fr) (address : Nat) (acct : AccountData)
    (storage_root : Fr) :
    at3 (account_hash_traces h address acct storage_root) 2 =
      (((acct.nonce : Nat) : Fr) + ((acct.code_size : Nat) : Fr) * ((2 ^ 64 : Nat) : Fr),
       ((acct.balance : Nat) : Fr),
       h (((acct.nonce : Nat) : Fr) + ((acct.code_size : Nat) : Fr) * ((2 ^ 64 : Nat) : Fr))
         ((acct.balance : Nat) : Fr)) := by
  show (((acct.nonce : Nat) : Fr) + ((acct.code_size : Nat) : Fr) * ((1 <<< 32 : Nat) : Fr) ^ 2,
        big_uint_to_fr acct.balance, _) = _
  rw [shift_square, big_uint_to_fr_eq_cast]

/-- Modelled from the spec (section 4.5 wording, kept only to refute C4 as
stated): fold the 64-bit digits most-significant-first with multiplier
`2^128`. -/
def big_uint_to_fr_spec (i : Nat) : Fr :=
  (u64_digits i).reverse.foldl
    (fun (a : Fr) (b : Nat) => a * ((2 ^ 128 : Nat) : Fr) + (b : Fr)) 0

/-- Account exhibiting the C4 discrepancy: code size 1 and balance `2^64`. -/
def c4_account : AccountData :=
  { nonce := 0, code_size := 1, balance := 2 ^ 64, code_hash := 0,
    poseidon_code_hash := 0 }

/-- Claim C4 counterexample: at code size 1 the left input of step 3 is
`2^64`, not the claimed `nonce + codeSize * 2^128`, and at balance `2^64` the
balance field element is `2^64`, not the claimed `2^128` fold. -/
theorem C4_counterexample :
    (at3 (account_hash_traces mh 0 c4_account 0) 2).1 ≠
      ((c4_account.nonce : Nat) : Fr) +
        ((c4_account.code_size : Nat) : Fr) * ((2 ^ 128 : Nat) : Fr) ∧
    (at3 (account_hash_traces mh 0 c4_account 0) 2).2.1 ≠
      big_uint_to_fr_spec c4_account.balance := by
  refine ⟨by decide, by decide⟩

/-- Root-adjacent input node of the C6 example (its combination yields the
root). -/
def c6_n0 : SMTNode := ⟨71, 30⟩

/-- Deepest input node of the C6 example (its value is the child of `c6_n0`). -/
def c6_n1 : SMTNode := ⟨10, 20⟩

/-- The traces `get_internal_hash_traces` builds from the C6 example. -/
def c6_traces : List AddressHashTrace :=
  [⟨true, 10, 10, 20, false, false⟩, ⟨false, 71, 71, 30, false, false⟩]

/-- Claim C6 counterexample: for the two-level path with key 2 (bit 0 = 0,
bit 1 = 1) the constructed list places at index 0 the deepest entry — the one
whose hash `H(sibling, value) = H(20, 10) = 71` feeds the index-1 entry, as
`check_hash_traces_new` confirms — and its direction bit is key bit 1, not
key bit 0; key bit 0 instead governs the last (root-adjacent) entry.  So
"the deepest level is governed by key bit 0" fails. -/
theorem C6_counterexample :
    get_internal_hash_traces 2 (0, 0) [c6_n0, c6_n1] [c6_n0, c6_n1] = some c6_traces ∧
    check_hash_traces_new mh c6_traces = true ∧
    mh 20 10 = 71 ∧
    (c6_traces.getD 0 dfltTrace).direction ≠ frBit 2 0 ∧
    (c6_traces.getD 0 dfltTrace).direction = frBit 2 1 ∧
    (c6_traces.getD 1 dfltTrace).direction = frBit 2 0 := by
  refine ⟨rfl, by decide, by decide, by decide, by decide, by decide⟩

/-- Claim C6 (amended): the direction bit stored at index `i` of the
constructed `address_hash_traces` list equals bit `len - 1 - i` of the key —
so the root-adjacent entry (index `len - 1`) is governed by key bit 0 and the
deepest entry (index 0) by key bit `len - 1` — and the direction loop of
`Proof::check` asserts exactly this equality for every entry. -/
theorem C6_directions (key : Fr) (lh : Fr × Fr) (ons cns : List SMTNode)
    (T : List AddressHashTrace)
    (hT : get_internal_hash_traces key lh ons cns = some T) :
    (∀ i, i < T.length → (T.getD i dfltTrace).direction = frBit key (T.length - 1 - i)) ∧
    directions_ok key T = true := by
  exact ⟨get_internal_hash_traces_direction key lh ons cns T hT,
    get_internal_hash_traces_directions_ok key lh ons cns T hT⟩

/-- Witness for C6 at the concrete two-level example. -/
theorem C6_witness :
    (c6_traces.getD 0 dfltTrace).direction = frBit 2 (c6_traces.length - 1 - 0) ∧
    directions_ok 2 c6_traces = true := by
  have h := C6_directions 2 (0, 0) [c6_n0, c6_n1] [c6_n0, c6_n1] c6_traces rfl
  exact ⟨h.1 0 (by decide), h.2⟩

/-- Claim C7: whenever `Proof::check` runs without fault, the last entry of
`address_hash_traces` combined with its sibling per its direction bit —
`H(sibling, value)` when the bit is set, `H(value, sibling)` otherwise —
reproduces the claimed old root on the open side and the claimed new root on
the close side; and an empty list always faults. -/
theorem C7_root_check (h : Fr → Fr → Fr) (p : Proof) (hc : Proof.check h p = true) :
    p.address_hash_traces ≠ [] ∧
    ∀ t, p.address_hash_traces.getLast? = some t →
      (if t.direction then h t.sibling t.open_value else h t.open_value t.sibling) =
        p.claim.old_root ∧
      (if t.direction then h t.sibling t.close_value else h t.close_value t.sibling) =
        p.claim.new_root := by
  unfold Proof.check at hc
  simp only [Bool.and_eq_true] at hc
  have h3 : roots_ok h p.claim.old_root p.claim.new_root p.address_hash_traces = true :=
    hc.1.1.1.1.1.2
  constructor
  · intro hnil
    unfold roots_ok at h3
    rw [hnil] at h3
    cases h3
  · intro t ht
    unfold roots_ok at h3
    rw [ht] at h3
    replace h3 :
        (if t.direction then
          decide (h t.sibling t.open_value = p.claim.old_root) &&
            decide (h t.sibling t.close_value = p.claim.new_root)
        else
          decide (h t.open_value t.sibling = p.claim.old_root) &&
            decide (h t.close_value t.sibling = p.claim.new_root)) = true := h3
    by_cases hd : t.direction = true
    · rw [if_pos hd] at h3
      rw [if_pos hd, if_pos hd]
      rw [Bool.and_eq_true] at h3
      exact ⟨of_decide_eq_true h3.1, of_decide_eq_true h3.2⟩
    · rw [if_neg hd] at h3
      rw [if_neg hd, if_neg hd]
      rw [Bool.and_eq_true] at h3
      exact ⟨of_decide_eq_true h3.1, of_decide_eq_true h3.2⟩

/-- A minimal `Proof` accepted by `Proof.check` under the constantly-zero
hash: every stored value is zero, one address trace entry, both leafs
present. -/
def zero_proof : Proof :=
  { claim := { old_root := 0, new_root := 0, address := 0, kind := ClaimKind.Nonce none none }
    address_hash_traces := [⟨false, 0, 0, 0, false, false⟩]
    leafs := (some ⟨0, 0⟩, some ⟨0, 0⟩)
    old_account_hash_traces := List.replicate 7 (0, 0, 0)
    new_account_hash_traces := List.replicate 7 (0, 0, 0)
    storage_hash_traces := none
    old := ⟨0, 0, none⟩
    new := ⟨0, 0, none⟩
    old_account := none
    new_account := none }

/-- Witness for C7: `zero_proof` passes `Proof.check` under `mh0`, so the
theorem applies to it and its trace list is nonempty. -/
theorem C7_witness :
    Proof.check mh0 zero_proof = true ∧ zero_proof.address_hash_traces ≠ [] :=
  ⟨by decide, (C7_root_check mh0 zero_proof (by decide)).1⟩

/-- Account snapshot used for the C5 evaluation. -/
def c5_account : AccountData :=
  { nonce := 1, code_size := 0, balance := 0, code_hash := 0, poseidon_code_hash := 0 }

/-- The honest account hash chain of `c5_account` under `mh`. -/
def c5_traces : List (Fr × Fr × Fr) := account_hash_traces mh 0 c5_account 0

/-- The honestly recorded leaf node of `c5_account`: its key is the account
key and its value hash is the account digest (step 5 output). -/
def c5_leaf : LeafNode := ⟨account_key mh 0, (at3 c5_traces 4).2.2⟩

/-- A `Proof` carrying the honest account chains and leaf nodes of
`c5_account` on both sides. -/
def c5_proof : Proof :=
  { claim := { old_root := 0, new_root := 0, address := 0, kind := ClaimKind.Nonce (some 1) (some 1) }
    address_hash_traces := []
    leafs := (some c5_leaf, some c5_leaf)
    old_account_hash_traces := c5_traces
    new_account_hash_traces := c5_traces
    storage_hash_traces := none
    old := ⟨0, 0, none⟩
    new := ⟨0, 0, none⟩
    old_account := none
    new_account := none }

/-- Claim C5 (code_bug evaluation): for the honest data of `c5_proof` the
recomputed leaf digest `H(H(1, key), valueHash)` equals the step-7 leaf
digest `account_hash_traces[6][2]` — the comparison the claim describes, hence
`leaf_check_spec` passes — but the code's `leaf_check` compares it against
`account_hash_traces[5][2] = H(1, accountKey)` and faults, so `Proof::check`
rejects this honest input. -/
theorem C5_code_eval :
    mh (mh 1 c5_leaf.key) c5_leaf.value_hash = (at3 c5_traces 6).2.2 ∧
    mh (mh 1 c5_leaf.key) c5_leaf.value_hash ≠ (at3 c5_traces 5).2.2 ∧
    leaf_check_spec mh c5_proof = true ∧
    leaf_check mh c5_proof = false ∧
    Proof.check mh c5_proof = false := by
  refine ⟨by decide, by decide, by decide, by decide, by decide⟩

/-- The seven selector targets `i + 1` (for `i : Fin 7`) are distinct field
elements, so at most one selector condition can fire per row. -/
theorem sel_index_inj (i j : Fin 7)
    (h : (((i : Nat) + 1 : Nat) : Fr) = (((j : Nat) + 1 : Nat) : Fr)) : i = j := by
  have hm : (8 : Nat) < frModulus := by decide
  have hi : (i : Nat) + 1 < frModulus := by have := i.isLt; omega
  have hj : (j : Nat) + 1 < frModulus := by have := j.isLt; omega
  have := fr_natCast_inj_small ((i : Nat) + 1) ((j : Nat) + 1) hi hj h
  exact Fin.ext (by omega)

/-- Claim C2 (amended): on every enabled row assigned by `MPTTable::load`,
each selector column is boolean (and satisfies its gate), the selector sum is
boolean (the uniqueness gate), and whenever the row's proofTypeCode
(`base[2]`) equals `k + 1` for some selector index `k` — i.e. is one of the
field elements 1..7 — exactly the `k`-th selector is 1 and its index plus 1
equals the proofTypeCode; rows whose proofTypeCode lies outside 1..7 have all
selectors at 0. -/
theorem C2_one_hot (e : MptTable.MPTEntry) :
    MptTable.proof_sel_gates (MptTable.entry_row e) ∧
    MptTable.unique_gate (MptTable.entry_row e) ∧
    ((∑ i, (MptTable.entry_row e).proof_sel i) = 0 ∨
      (∑ i, (MptTable.entry_row e).proof_sel i) = 1) ∧
    ∀ k : Fin 7, e.base 2 = (((k : Nat) + 1 : Nat) : Fr) →
      (MptTable.entry_row e).proof_sel k = 1 ∧
      (∀ j, j ≠ k → (MptTable.entry_row e).proof_sel j = 0) ∧
      (MptTable.entry_row e).proof_type = e.base 2 ∧
      (∑ i, (MptTable.entry_row e).proof_sel i) = 1 := by
  have hsel : ∀ i : Fin 7, (MptTable.entry_row e).proof_sel i =
      if (((i : Nat) + 1 : Nat) : Fr) = e.base 2 then 1 else 0 := fun i => rfl
  have hone : ∀ k : Fin 7, e.base 2 = (((k : Nat) + 1 : Nat) : Fr) →
      (MptTable.entry_row e).proof_sel k = 1 ∧
      (∀ j, j ≠ k → (MptTable.entry_row e).proof_sel j = 0) ∧
      (MptTable.entry_row e).proof_type = e.base 2 ∧
      (∑ i, (MptTable.entry_row e).proof_sel i) = 1 := by
    intro k hk
    have hselk : ∀ i : Fin 7, (MptTable.entry_row e).proof_sel i =
        if i = k then 1 else 0 := by
      intro i
      rw [hsel i]
      by_cases hik : i = k
      · rw [if_pos hik, if_pos (by rw [hik, hk])]
      · rw [if_neg hik, if_neg]
        intro hcast
        exact hik (sel_index_inj i k (hcast.trans hk))
    refine ⟨?_, ?_, rfl, ?_⟩
    · rw [hselk k, if_pos rfl]
    · intro j hj
      rw [hselk j, if_neg hj]
    · rw [Finset.sum_congr rfl (fun i _ => hselk i), Finset.sum_ite_eq' Finset.univ k
        (fun _ => (1 : Fr)), if_pos (Finset.mem_univ k)]
  have hsum : (∑ i, (MptTable.entry_row e).proof_sel i) = 0 ∨
      (∑ i, (MptTable.entry_row e).proof_sel i) = 1 := by
    by_cases hex : ∃ k : Fin 7, e.base 2 = (((k : Nat) + 1 : Nat) : Fr)
    · obtain ⟨k, hk⟩ := hex
      exact Or.inr ((hone k hk).2.2.2)
    · refine Or.inl (Finset.sum_eq_zero ?_)
      intro i _
      rw [hsel i, if_neg]
      intro hcast
      exact hex ⟨i, hcast.symm⟩
  refine ⟨?_, ?_, hsum, hone⟩
  · intro i
    rw [hsel i]
    by_cases hc : (((i : Nat) + 1 : Nat) : Fr) = e.base 2
    · rw [if_pos hc]
      constructor
      · ring
      · have hpt : (MptTable.entry_row e).proof_type = e.base 2 := rfl
        rw [hpt, ← hc]
        ring
    · rw [if_neg hc]
      constructor <;> ring
  · unfold MptTable.unique_gate
    rcases hsum with hs | hs <;> rw [hs] <;> ring

/-- The all-zero table entry (the shape `MPTEntry::default()` takes, and the
base layout `from_op` emits for, e.g., a nonce operation with no storage
key). -/
def c2_entry_zero : MptTable.MPTEntry :=
  { base := ![0, 0, 0, 0, 0, 0, 0], storage_key := ⟨0, 0⟩, new_value := ⟨0, 0⟩,
    old_value := ⟨0, 0⟩ }

/-- Claim C2 counterexample: the row loaded for an entry whose proofTypeCode
(`base[2]`) is 0 is enabled yet has every selector at 0 — no selector equals
1, so "exactly one selector equals 1" fails on this non-padding row. -/
theorem C2_counterexample :
    (MptTable.entry_row c2_entry_zero).sel = true ∧
    (∑ i, (MptTable.entry_row c2_entry_zero).proof_sel i) = 0 ∧
    ¬ ∃ i : Fin 7, (MptTable.entry_row c2_entry_zero).proof_sel i = 1 := by
  refine ⟨rfl, by decide, by decide⟩

/-- Entry with proofTypeCode 3 used to instantiate C2. -/
def c2_entry_three : MptTable.MPTEntry :=
  { base := ![0, 0, 3, 0, 0, 0, 0], storage_key := ⟨0, 0⟩, new_value := ⟨0, 0⟩,
    old_value := ⟨0, 0⟩ }

/-- Witness for C2 at proofTypeCode 3: selector index 2 fires alone. -/
theorem C2_witness :
    (MptTable.entry_row c2_entry_three).proof_sel 2 = 1 ∧
    (∑ i, (MptTable.entry_row c2_entry_three).proof_sel i) = 1 := by
  have h := (C2_one_hot c2_entry_three).2.2.2 2 (by decide)
  exact ⟨h.1, h.2.2.2⟩

/-- Concrete operation used to evaluate `MPTEntry::from_op` for C3. -/
def c3_op : MptTable.AccountOp :=
  { address := 100
    account_before := some { nonce := 5, balance := 7, codehash := (0, 0) }
    account_after := some { nonce := 6, balance := 7, codehash := (0, 0) }
    store_key := none
    store_before := none
    store_after := none
    account_root_before := 11
    account_root := 22 }

/-- The entry `from_op` builds for a nonce change on `c3_op`. -/
def c3_entry : MptTable.MPTEntry :=
  MptTable.MPTEntry.from_op MptTable.MPTProofType.NonceChanged c3_op 0

/-- Claim C3 (code_bug evaluation): `from_op` writes the proofTypeCode into
`base[0]` and the address into `base[1]`, while `load` zips `base[0]` onto
the `address` column and `base[2]` onto the `proof_type` column; on `c3_op`
the loaded row therefore shows address 1 (the proof type code) instead of
100, and proof type 0 (the storage-key RLC) instead of 1 — the claimed order
`[address, storageKeyRLC, proofTypeCode, newRoot, oldRoot, newValue,
oldValue]` does not hold. -/
theorem C3_code_eval :
    c3_entry.base 0 = ((MptTable.MPTProofType.NonceChanged.code : Nat) : Fr) ∧
    c3_entry.base 0 ≠ c3_op.address ∧
    c3_entry.base 1 = c3_op.address ∧
    (MptTable.entry_row c3_entry).address = 1 ∧
    (MptTable.entry_row c3_entry).address ≠ c3_op.address ∧
    (MptTable.entry_row c3_entry).proof_type = 0 ∧
    (MptTable.entry_row c3_entry).proof_type ≠ c3_entry.base 0 ∧
    (MptTable.entry_row c3_entry).new_value = c3_op.account_root_before := by
  refine ⟨by decide, by decide, by decide, by decide, by decide, by decide, by decide, by decide⟩

/-- Claim C8: `MPTTable::load` checks `entries.len() <= rows` before any cell
is assigned and faults (assigning nothing) when the entry count exceeds the
configured row budget. -/
theorem C8_row_budget (t : MptTable.MPTTable) (h : t.rows < t.entries.length) :
    MptTable.MPTTable.load t = none := by
  unfold MptTable.MPTTable.load
  rw [if_neg (by omega)]

/-- A table with one entry and zero row budget. -/
def c8_table : MptTable.MPTTable := { entries := [c2_entry_zero], rows := 0 }

/-- Witness for C8: the one-entry, zero-row table faults. -/
theorem C8_witness : MptTable.MPTTable.load c8_table = none :=
  C8_row_budget c8_table (by decide)
